import Mathlib

/-!
Formal model of the zone-based balancing-market clearing engine implemented in
`scripts/IV_clear_balancing_market.py`.

Modelling conventions:
* Python floats (prices, volumes, costs) are modelled as exact rationals `ℚ`;
  the numeric literals `0.1`, `0.5` of the source become `1/10`, `1/2`.
* pandas DataFrames become lists of records; the integer row index of a frame
  becomes the position of the record in the list (`List.enum`).
* In-place mutation of a frame (`df.loc[idx, 'volume_mw'] -= v`) becomes
  explicit state passing: each clearing routine returns, besides the result
  dictionary of the source, the final state of the frame it was handed.
* `df.sort_values('price')` uses numpy's default `quicksort` argsort, whose
  order among equal keys is implementation-defined in general; only below the
  introsort's small-array threshold (segments of at most 16 rows) is it the
  stable insertion sort.  The model adopts the stable insertion sort, and
  `ascending=False` is modelled, exactly as pandas (`nargsort`) implements it,
  as the reverse of the ascending argsort.  Every theorem except the
  equal-price acceptance-order one is insensitive to tie order (it holds for
  any price-sorted permutation); the tie-order theorem restricts itself to
  stacks within the insertion-sort regime, where the model is faithful.
-/

/-- One row of the `bmu_classification` DataFrame: the `_side` columns
`SSE-SP_side`, `SCOTEX_side`, `SSHARN_side`, `FLOWSTH_side`, `SEIMP_side`.
`row.get(col)` returning a missing value is modelled by `none`. -/
structure BmuRow where
  sse_sp_side : Option String
  scotex_side : Option String
  ssharn_side : Option String
  flowsth_side : Option String
  seimp_side : Option String
deriving DecidableEq

/-- Model of `classify_unit_to_zone(unit_id, bmu_classification)`: the
classification table is a partial map from unit id to its row (`none` models
`unit_id not in bmu_classification.index`). -/
def classify_unit_to_zone (unit_id : String) (bmu_classification : String → Option BmuRow) :
    String :=
  match bmu_classification unit_id with
  | none => "unknown"
  | some row =>
    if row.sse_sp_side == some "north" then "red"
    else if row.scotex_side == some "north" then "orange"
    else if row.ssharn_side == some "north" then "green"
    else if row.flowsth_side == some "north" then "blue"
    else if row.seimp_side == some "north" then "purple"
    else "yellow"

/-- The `zones` list of `calculate_zone_volumes_per_period`. -/
def zones : List String :=
  ["red", "orange", "green", "blue", "purple", "yellow", "unknown"]

/-- A dispatch time-series frame (`n.generators_t.p`): an index of timestamps,
a set of generator columns, and the dispatched power value per cell. -/
structure DispatchFrame where
  timestamps : List Nat
  columns : List String
  p : Nat → String → ℚ

/-- One row of the result of `calculate_zone_volumes_per_period`. -/
structure ZoneVolRow where
  timestamp : Nat
  zone : String
  flex_up_mwh : ℚ
  flex_down_mwh : ℚ
deriving DecidableEq

/-- The inner accumulation loop of `calculate_zone_volumes_per_period`:
starting from `(flex_up, flex_down) = (0, 0)`, for each generator of the zone
add positive dispatch changes to `flex_up` and the absolute value of
non-positive changes to `flex_down`. -/
def zoneFlexFold (w r : DispatchFrame) (ts : Nat) (gens : List String) : ℚ × ℚ :=
  gens.foldl
    (fun acc gen_name =>
      let wholesale_val := w.p ts gen_name * (1/2)
      let redispatch_val := r.p ts gen_name * (1/2)
      let change := redispatch_val - wholesale_val
      if change > 0 then (acc.1 + change, acc.2) else (acc.1, acc.2 + |change|))
    (0, 0)

/-- The `zone_generators` list of `calculate_zone_volumes_per_period`: the
wholesale columns also present in the redispatch frame that classify to the
given zone. -/
def zoneGenerators (w r : DispatchFrame) (bmu_classification : String → Option BmuRow)
    (zone : String) : List String :=
  w.columns.filter fun gen_name =>
    r.columns.contains gen_name &&
      classify_unit_to_zone gen_name bmu_classification == zone

/-- The body of the timestamp loop of `calculate_zone_volumes_per_period`: for
each of the seven zones, skip the zone if it has no generators, otherwise emit
a row with the accumulated flex volumes. -/
def rowsForTimestamp (w r : DispatchFrame) (bmu_classification : String → Option BmuRow)
    (ts : Nat) : List ZoneVolRow :=
  zones.filterMap fun zone =>
    if (zoneGenerators w r bmu_classification zone).isEmpty then none
    else
      let flex := zoneFlexFold w r ts (zoneGenerators w r bmu_classification zone)
      some { timestamp := ts, zone := zone,
             flex_up_mwh := flex.1, flex_down_mwh := flex.2 }

/-- Model of `calculate_zone_volumes_per_period(n_wholesale, n_redispatch,
bmu_classification)`: the timestamp loop over the wholesale frame's index. -/
def calculate_zone_volumes_per_period (w r : DispatchFrame)
    (bmu_classification : String → Option BmuRow) : List ZoneVolRow :=
  w.timestamps.flatMap fun ts => rowsForTimestamp w r bmu_classification ts

/-- One row of the annotated `bids_df` / `offers_df` frames handed to the
clearing engine: columns `timestamp, unit_id, pair_id, price, volume_mw` plus
the annotation columns `zone, carrier_type`. -/
structure Entry where
  timestamp : Nat
  unit_id : String
  pair_id : Int
  price : ℚ
  volume_mw : ℚ
  zone : String
  carrier_type : String
deriving DecidableEq

/-- One element of the `accepted_actions` list built by the clearing
routines. -/
structure BmAction where
  timestamp : Nat
  zone : String
  unit_id : String
  carrier_type : String
  pair_id : Int
  action_type : String
  volume_mwh : ℚ
  price_per_mwh : ℚ
  cost_gbp : ℚ
deriving DecidableEq

/-- Stable insertion of an enumerated row into a list already sorted by price
ascending: the new row goes in front of the first strictly-larger-or-equal
price only when strictly cheaper is false, i.e. it is placed before the first
row whose price is `≥` its own, keeping earlier rows with equal price ahead of
later ones once used by `sortStackAsc` (which inserts earlier rows into the
sorted later rows). -/
def insertByPrice (x : Nat × Entry) : List (Nat × Entry) → List (Nat × Entry)
  | [] => [x]
  | h :: t => if x.2.price ≤ h.2.price then x :: h :: t else h :: insertByPrice x t

/-- Model of `df.sort_values('price', ascending=True)` on the enumerated rows,
as a stable sort by price.  Caveat: the source uses numpy's default
`quicksort` argsort, which guarantees this tie order only for arrays of at
most 16 rows (where introsort is a single insertion-sort pass); for larger
frames the order of equal prices is implementation-defined, and only
tie-order-insensitive conclusions should be drawn from this model there. -/
def sortStackAsc : List (Nat × Entry) → List (Nat × Entry)
  | [] => []
  | x :: l => insertByPrice x (sortStackAsc l)

/-- Model of `df.sort_values('price', ascending=False)`: pandas (`nargsort`)
computes the ascending argsort and reverses it, so the descending order is the
exact reverse of the ascending one — in particular, within the insertion-sort
regime of `sortStackAsc` (at most 16 rows), rows with equal price appear in
reverse arrival order; beyond it the tie order is implementation-defined. -/
def sortStackDesc (l : List (Nat × Entry)) : List (Nat × Entry) :=
  (sortStackAsc l).reverse

/-- The acceptance walk shared by `clear_zone_upward` and
`clear_zone_downward`: walk the sorted rows, break as soon as
`remaining_volume <= 0.1`, skip rows with `accept_volume <= 0`, otherwise emit
an accepted action (tagged with the original row index, modelling the pandas
index used for the in-place decrement), decrement the remaining volume and
accumulate the cost.  Returns (indexed actions, final remaining volume,
total cost). -/
def acceptLoop (ts : Nat) (zone : String) (action_type : String) :
    List (Nat × Entry) → ℚ → List (Nat × BmAction) × ℚ × ℚ
  | [], remaining_volume => ([], remaining_volume, 0)
  | (idx, row) :: rest, remaining_volume =>
    if remaining_volume ≤ 1/10 then ([], remaining_volume, 0)
    else
      let accept_volume := min row.volume_mw remaining_volume
      if accept_volume ≤ 0 then acceptLoop ts zone action_type rest remaining_volume
      else
        let action_cost := row.price * accept_volume * (1/2)
        let a : BmAction :=
          { timestamp := ts, zone := zone, unit_id := row.unit_id,
            carrier_type := row.carrier_type, pair_id := row.pair_id,
            action_type := action_type, volume_mwh := accept_volume,
            price_per_mwh := row.price, cost_gbp := action_cost }
        let out := acceptLoop ts zone action_type rest (remaining_volume - accept_volume)
        ((idx, a) :: out.1, out.2.1, action_cost + out.2.2)

/-- Total volume accepted from the row of original index `i`: the cumulative
effect of the source's `available.loc[idx, 'volume_mw'] -= accept_volume`
statements targeting that index. -/
def sumAcceptedAt (i : Nat) (acts : List (Nat × BmAction)) : ℚ :=
  ((acts.filter fun p => p.1 == i).map fun p => p.2.volume_mwh).sum

/-- Final state of the frame passed to a clearing routine: each row's
`volume_mw` decremented by the volume accepted from it. -/
def applyDecrements (stack : List Entry) (acts : List (Nat × BmAction)) : List Entry :=
  stack.enum.map fun p => { p.2 with volume_mw := p.2.volume_mw - sumAcceptedAt p.1 acts }

/-- Return value of a clearing routine: the four entries of the result dict of
the source, plus `stack_after`, the final state of the (mutated in place in the
source) frame that was passed in. -/
structure ClearResult where
  cleared_volume : ℚ
  uncleared_volume : ℚ
  total_cost : ℚ
  accepted_actions : List BmAction
  stack_after : List Entry
deriving DecidableEq

/-- Model of `clear_zone_upward(required_volume, available_offers, zone,
settlement_timestamp)`: accept offers in ascending price order. -/
def clear_zone_upward (required_volume : ℚ) (available_offers : List Entry)
    (zone : String) (settlement_timestamp : Nat) : ClearResult :=
  if available_offers.isEmpty ∨ required_volume ≤ 0 then
    { cleared_volume := 0, uncleared_volume := required_volume,
      total_cost := 0, accepted_actions := [], stack_after := available_offers }
  else
    let sorted_offers := sortStackAsc available_offers.enum
    let out := acceptLoop settlement_timestamp zone "offer" sorted_offers required_volume
    { cleared_volume := required_volume - max 0 out.2.1,
      uncleared_volume := max 0 out.2.1,
      total_cost := out.2.2,
      accepted_actions := out.1.map Prod.snd,
      stack_after := applyDecrements available_offers out.1 }

/-- Model of `clear_zone_downward(required_volume, available_bids, zone,
settlement_timestamp)`: accept bids in descending price order. -/
def clear_zone_downward (required_volume : ℚ) (available_bids : List Entry)
    (zone : String) (settlement_timestamp : Nat) : ClearResult :=
  if available_bids.isEmpty ∨ required_volume ≤ 0 then
    { cleared_volume := 0, uncleared_volume := required_volume,
      total_cost := 0, accepted_actions := [], stack_after := available_bids }
  else
    let sorted_bids := sortStackDesc available_bids.enum
    let out := acceptLoop settlement_timestamp zone "bid" sorted_bids required_volume
    { cleared_volume := required_volume - max 0 out.2.1,
      uncleared_volume := max 0 out.2.1,
      total_cost := out.2.2,
      accepted_actions := out.1.map Prod.snd,
      stack_after := applyDecrements available_bids out.1 }

/-- The `zone_order` list of `run_balancing_market_clearing`. -/
def zone_order : List String :=
  ["red", "orange", "green", "blue", "purple", "yellow", "unknown"]

/-- The `zone_names` dict of `run_balancing_market_clearing`, applied through
`zone_names.get(zone, 'Unknown')`. -/
def zone_names (zone : String) : String :=
  if zone == "red" then "North of SSE-SP"
  else if zone == "orange" then "SSE-SP to SCOTEX"
  else if zone == "green" then "SCOTEX to SSHARN"
  else if zone == "blue" then "SSHARN to FLOWSTH"
  else if zone == "purple" then "FLOWSTH to SEIMP"
  else if zone == "yellow" then "South of all constraints"
  else if zone == "unknown" then "Not classified"
  else "Unknown"

/-- One row of the `settlement_results` stream. -/
structure SettlementRow where
  timestamp : Nat
  zone : String
  zone_name : String
  direction : String
  required_volume_mwh : ℚ
  cleared_volume_mwh : ℚ
  uncleared_volume_mwh : ℚ
  total_cost_gbp : ℚ
  uncleared_flag : String
deriving DecidableEq

/-- One row of the `uncleared_summary` stream. -/
structure UnclearedRow where
  timestamp : Nat
  zone : String
  zone_name : String
  direction : String
  uncleared_volume_mwh : ℚ
deriving DecidableEq

/-- The per-period mutable state of `run_balancing_market_clearing`: the
`available_bids` and `available_offers` frames for the current timestamp. -/
structure PeriodState where
  available_bids : List Entry
  available_offers : List Entry
deriving DecidableEq

/-- Model of `zone_volumes.loc[(ts, zone)]`: the first row of the requirement
table carrying this (timestamp, zone) pair, as `(flex_up_mwh, flex_down_mwh)`;
`none` models the `KeyError` branch. -/
def lookupZoneVol (zone_volumes : List ZoneVolRow) (ts : Nat) (zone : String) :
    Option (ℚ × ℚ) :=
  (zone_volumes.find? fun row => row.timestamp == ts && row.zone == zone).map
    fun row => (row.flex_up_mwh, row.flex_down_mwh)

/-- Does pool entry `e` match accepted action `a` in the removal step of
`run_balancing_market_clearing` (same `unit_id`, same `pair_id`, and the
entry's `timestamp` equal to the period being cleared)? -/
def matchesBmAction (ts : Nat) (a : BmAction) (e : Entry) : Bool :=
  e.unit_id == a.unit_id && e.pair_id == a.pair_id && e.timestamp == ts

/-- The removal loop of `run_balancing_market_clearing`: for each accepted
action in turn, drop every row of the pool matching it. -/
def removeAccepted (ts : Nat) (pool : List Entry) (actions : List BmAction) :
    List Entry :=
  actions.foldl (fun p a => p.filter fun e => !(matchesBmAction ts a e)) pool

/-- Everything `run_balancing_market_clearing` produces for one zone of one
settlement period: the updated period state and the rows appended to the three
output streams. -/
structure ZoneOutcome where
  state : PeriodState
  row : SettlementRow
  actions : List BmAction
  uncleared : List UnclearedRow
deriving DecidableEq

/-- The settlement-summary row appended for a zone-period. -/
def mkSettlementRow (ts : Nat) (zone direction : String) (required_volume : ℚ)
    (result : ClearResult) : SettlementRow :=
  { timestamp := ts, zone := zone, zone_name := zone_names zone,
    direction := direction, required_volume_mwh := required_volume,
    cleared_volume_mwh := result.cleared_volume,
    uncleared_volume_mwh := result.uncleared_volume,
    total_cost_gbp := result.total_cost,
    uncleared_flag := if result.uncleared_volume > 1/10 then "YES" else "NO" }

/-- The uncleared-summary rows appended for a zone-period (one row when the
uncleared volume exceeds the 0.1 MWh tolerance, none otherwise). -/
def mkUnclearedRows (ts : Nat) (zone direction : String) (result : ClearResult) :
    List UnclearedRow :=
  if result.uncleared_volume > 1/10 then
    [{ timestamp := ts, zone := zone, zone_name := zone_names zone,
       direction := direction, uncleared_volume_mwh := result.uncleared_volume }]
  else []

/-- The `'cleared_volume': 0.0, ...` result dict built inline by the
no-balancing-required branch of `run_balancing_market_clearing` (it carries no
frame, so `stack_after` is empty). -/
def noneResult : ClearResult :=
  { cleared_volume := 0, uncleared_volume := 0, total_cost := 0,
    accepted_actions := [], stack_after := [] }

/-- The body of the `for zone in zone_order` loop of
`run_balancing_market_clearing`: look up the requirement for (ts, zone)
(`KeyError` giving zeros), pick the direction, clear the zone-filtered slice of
the relevant pool, remove the rows matching accepted actions from the
period-level pool, and record the output rows. -/
def processZone (zone_volumes : List ZoneVolRow) (ts : Nat) (st : PeriodState)
    (zone : String) : ZoneOutcome :=
  let flex := (lookupZoneVol zone_volumes ts zone).getD (0, 0)
  let flex_up_required := flex.1
  let flex_down_required := flex.2
  if flex_down_required > 1/10 then
    let zone_bids := st.available_bids.filter fun e => e.zone == zone
    let result := clear_zone_downward flex_down_required zone_bids zone ts
    { state := { available_bids := removeAccepted ts st.available_bids result.accepted_actions,
                 available_offers := st.available_offers },
      row := mkSettlementRow ts zone "down" flex_down_required result,
      actions := result.accepted_actions,
      uncleared := mkUnclearedRows ts zone "down" result }
  else if flex_up_required > 1/10 then
    let zone_offers := st.available_offers.filter fun e => e.zone == zone
    let result := clear_zone_upward flex_up_required zone_offers zone ts
    { state := { available_bids := st.available_bids,
                 available_offers := removeAccepted ts st.available_offers result.accepted_actions },
      row := mkSettlementRow ts zone "up" flex_up_required result,
      actions := result.accepted_actions,
      uncleared := mkUnclearedRows ts zone "up" result }
  else
    { state := st,
      row := mkSettlementRow ts zone "none" 0 noneResult,
      actions := [],
      uncleared := [] }

/-- One iteration of the timestamp loop of `run_balancing_market_clearing`:
start from the period-filtered copies of the bid and offer frames and fold the
zone loop over `zone_order`, concatenating the output rows. -/
def processPeriod (zone_volumes : List ZoneVolRow) (ts : Nat)
    (bids_df offers_df : List Entry) :
    List SettlementRow × List BmAction × List UnclearedRow :=
  let init : PeriodState :=
    { available_bids := bids_df.filter fun e => e.timestamp == ts,
      available_offers := offers_df.filter fun e => e.timestamp == ts }
  let fin := zone_order.foldl
    (fun (acc : PeriodState × List SettlementRow × List BmAction × List UnclearedRow) zone =>
      let out := processZone zone_volumes ts acc.1 zone
      (out.state, acc.2.1 ++ [out.row], acc.2.2.1 ++ out.actions,
       acc.2.2.2 ++ out.uncleared))
    (init, [], [], [])
  (fin.2.1, fin.2.2.1, fin.2.2.2)

/-- Model of `pd.Index.unique()`: the distinct values in order of first
occurrence. -/
def uniqueFirst : List Nat → List Nat
  | [] => []
  | x :: l => x :: uniqueFirst (l.filter fun y => y != x)
termination_by l => l.length
decreasing_by
  simp only [List.length_cons]
  exact Nat.lt_succ_of_le (List.length_filter_le _ _)

/-- Model of `run_balancing_market_clearing(zone_volumes, bids_df, offers_df,
unit_lookup)`: process each distinct timestamp of the requirement table in turn
and concatenate the three output streams. -/
def run_balancing_market_clearing (zone_volumes : List ZoneVolRow)
    (bids_df offers_df : List Entry) :
    List SettlementRow × List BmAction × List UnclearedRow :=
  let timestamps := uniqueFirst (zone_volumes.map fun row => row.timestamp)
  let per := timestamps.map fun ts => processPeriod zone_volumes ts bids_df offers_df
  ((per.map fun o => o.1).flatten, (per.map fun o => o.2.1).flatten,
   (per.map fun o => o.2.2).flatten)

/-- Modelled from the spec wording of the Zone Classifier contract: the five
boundaries with their zones, in fixed north-to-south order. -/
def boundaryZones : List ((BmuRow → Option String) × String) :=
  [(BmuRow.sse_sp_side, "red"), (BmuRow.scotex_side, "orange"),
   (BmuRow.ssharn_side, "green"), (BmuRow.flowsth_side, "blue"),
   (BmuRow.seimp_side, "purple")]

/-- Spec-side restatement of the Zone Classifier: return the zone of the first
boundary whose side is `north`, `yellow` when none is, and `unknown` when the
participant has no row at all.  Stated from the spec's words, to be compared
with `classify_unit_to_zone`. -/
def classifySpec (unit_id : String) (bmu_classification : String → Option BmuRow) :
    String :=
  match bmu_classification unit_id with
  | none => "unknown"
  | some row =>
    match boundaryZones.find? fun b => b.1 row == some "north" with
    | some b => b.2
    | none => "yellow"

/-- The requirement pair `(flex_up_required, flex_down_required)` read by the
zone loop for (ts, zone): the looked-up row, or `(0, 0)` on `KeyError`. -/
def flexOf (zone_volumes : List ZoneVolRow) (ts : Nat) (zone : String) : ℚ × ℚ :=
  (lookupZoneVol zone_volumes ts zone).getD (0, 0)

/-- The `zone_bids` frame of the zone loop: the period's available bids
filtered to the current zone. -/
def zoneBids (st : PeriodState) (zone : String) : List Entry :=
  st.available_bids.filter fun e => e.zone == zone

/-- The `zone_offers` frame of the zone loop: the period's available offers
filtered to the current zone. -/
def zoneOffers (st : PeriodState) (zone : String) : List Entry :=
  st.available_offers.filter fun e => e.zone == zone

theorem insertByPrice_perm (x : Nat × Entry) :
    ∀ l : List (Nat × Entry), (insertByPrice x l).Perm (x :: l)
  | [] => List.Perm.refl _
  | h :: t => by
    simp only [insertByPrice]
    split_ifs with hle
    · exact List.Perm.refl _
    · exact ((insertByPrice_perm x t).cons h).trans (List.Perm.swap x h t)

theorem sortStackAsc_perm : ∀ l : List (Nat × Entry), (sortStackAsc l).Perm l
  | [] => List.Perm.refl _
  | x :: l => (insertByPrice_perm x (sortStackAsc l)).trans ((sortStackAsc_perm l).cons x)

theorem insertByPrice_sorted (x : Nat × Entry) {l : List (Nat × Entry)}
    (hl : l.Pairwise fun p q => p.2.price ≤ q.2.price) :
    (insertByPrice x l).Pairwise fun p q => p.2.price ≤ q.2.price := by
  induction l with
  | nil => simp [insertByPrice]
  | cons h t ih =>
    simp only [insertByPrice]
    rcases List.pairwise_cons.mp hl with ⟨hh, ht⟩
    split_ifs with hle
    · refine List.pairwise_cons.mpr ⟨fun q hq => ?_, hl⟩
      rcases List.mem_cons.mp hq with hq | hq
      · exact hq ▸ hle
      · exact le_trans hle (hh q hq)
    · refine List.pairwise_cons.mpr ⟨fun q hq => ?_, ih ht⟩
      have hq' : q ∈ x :: t := (insertByPrice_perm x t).mem_iff.mp hq
      rcases List.mem_cons.mp hq' with hq' | hq'
      · exact hq' ▸ le_of_not_le hle
      · exact hh q hq'

theorem sortStackAsc_sorted :
    ∀ l : List (Nat × Entry),
      (sortStackAsc l).Pairwise fun p q => p.2.price ≤ q.2.price
  | [] => List.Pairwise.nil
  | x :: l => insertByPrice_sorted x (sortStackAsc_sorted l)

theorem insertByPrice_stable (x : Nat × Entry) {l : List (Nat × Entry)}
    (hx : ∀ q ∈ l, x.2.price = q.2.price → x.1 < q.1)
    (hl : l.Pairwise fun p q => p.2.price = q.2.price → p.1 < q.1) :
    (insertByPrice x l).Pairwise fun p q => p.2.price = q.2.price → p.1 < q.1 := by
  induction l with
  | nil => simp [insertByPrice]
  | cons h t ih =>
    simp only [insertByPrice]
    rcases List.pairwise_cons.mp hl with ⟨hh, ht⟩
    split_ifs with hle
    · exact List.pairwise_cons.mpr ⟨hx, hl⟩
    · refine List.pairwise_cons.mpr
        ⟨fun q hq => ?_, ih (fun q hq => hx q (List.mem_cons_of_mem h hq)) ht⟩
      have hq' : q ∈ x :: t := (insertByPrice_perm x t).mem_iff.mp hq
      rcases List.mem_cons.mp hq' with hq' | hq'
      · subst hq'
        intro heq
        exact absurd heq.ge hle
      · exact hh q hq'

theorem sortStackAsc_stable {l : List (Nat × Entry)}
    (h : l.Pairwise fun p q => p.1 < q.1) :
    (sortStackAsc l).Pairwise fun p q => p.2.price = q.2.price → p.1 < q.1 := by
  induction l with
  | nil => exact List.Pairwise.nil
  | cons x l ih =>
    rcases List.pairwise_cons.mp h with ⟨hx, hl⟩
    exact insertByPrice_stable x
      (fun q hq _ => hx q ((sortStackAsc_perm l).mem_iff.mp hq)) (ih hl)

theorem enum_pairwise_fst (l : List Entry) :
    l.enum.Pairwise fun p q => p.1 < q.1 := by
  have h : (l.enum.map Prod.fst).Pairwise (Nat.lt) := by
    rw [List.enum_map_fst]
    exact List.pairwise_lt_range l.length
  exact List.pairwise_map.mp h

theorem enum_fst_nodup (l : List Entry) : (l.enum.map Prod.fst).Nodup := by
  rw [List.enum_map_fst]
  exact List.nodup_range _

theorem acceptLoop_break (ts : Nat) (zone action_type : String)
    (rows : List (Nat × Entry)) {rem : ℚ} (h : rem ≤ 1/10) :
    acceptLoop ts zone action_type rows rem = ([], rem, 0) := by
  cases rows with
  | nil => rfl
  | cons p rest =>
    obtain ⟨idx, row⟩ := p
    simp only [acceptLoop]
    rw [if_pos h]

theorem acceptLoop_sublist (ts : Nat) (zone action_type : String) :
    ∀ (rows : List (Nat × Entry)) (rem : ℚ),
      ((acceptLoop ts zone action_type rows rem).1.map fun p => (p.1, p.2.price_per_mwh)).Sublist
        (rows.map fun p => (p.1, p.2.price))
  | [], _ => by simp [acceptLoop]
  | (idx, row) :: rest, rem => by
    simp only [acceptLoop]
    split_ifs with hbreak haccept
    · simp
    · exact (acceptLoop_sublist ts zone action_type rest rem).trans
        (List.sublist_cons_self _ _)
    · simp only [List.map_cons]
      exact List.Sublist.cons₂ _ (acceptLoop_sublist ts zone action_type rest _)

theorem acceptLoop_cost_formula (ts : Nat) (zone action_type : String) :
    ∀ (rows : List (Nat × Entry)) (rem : ℚ),
      ∀ p ∈ (acceptLoop ts zone action_type rows rem).1,
        p.2.cost_gbp = p.2.price_per_mwh * p.2.volume_mwh * (1/2)
  | [], _ => by simp [acceptLoop]
  | (idx, row) :: rest, rem => by
    simp only [acceptLoop]
    split_ifs with hbreak haccept
    · simp
    · exact acceptLoop_cost_formula ts zone action_type rest rem
    · intro p hp
      rcases List.mem_cons.mp hp with hp | hp
      · simp [hp]
      · exact acceptLoop_cost_formula ts zone action_type rest _ p hp

theorem acceptLoop_mem_volume (ts : Nat) (zone action_type : String) :
    ∀ (rows : List (Nat × Entry)) (rem : ℚ),
      ∀ p ∈ (acceptLoop ts zone action_type rows rem).1,
        ∃ e, (p.1, e) ∈ rows ∧ 0 < p.2.volume_mwh ∧ p.2.volume_mwh ≤ e.volume_mw
  | [], _ => by simp [acceptLoop]
  | (idx, row) :: rest, rem => by
    simp only [acceptLoop]
    split_ifs with hbreak haccept
    · simp
    · intro p hp
      obtain ⟨e, he, h1, h2⟩ := acceptLoop_mem_volume ts zone action_type rest rem p hp
      exact ⟨e, List.mem_cons_of_mem _ he, h1, h2⟩
    · intro p hp
      rcases List.mem_cons.mp hp with hp | hp
      · subst hp
        refine ⟨row, List.mem_cons_self _ _, ?_, ?_⟩
        · simpa using lt_of_not_le haccept
        · simp only
          exact min_le_left row.volume_mw _
      · obtain ⟨e, he, h1, h2⟩ := acceptLoop_mem_volume ts zone action_type rest _ p hp
        exact ⟨e, List.mem_cons_of_mem _ he, h1, h2⟩

theorem acceptLoop_total_cost (ts : Nat) (zone action_type : String) :
    ∀ (rows : List (Nat × Entry)) (rem : ℚ),
      (acceptLoop ts zone action_type rows rem).2.2
        = ((acceptLoop ts zone action_type rows rem).1.map fun p => p.2.cost_gbp).sum
  | [], _ => by simp [acceptLoop]
  | (idx, row) :: rest, rem => by
    simp only [acceptLoop]
    split_ifs with hbreak haccept
    · simp
    · exact acceptLoop_total_cost ts zone action_type rest rem
    · simp only [List.map_cons, List.sum_cons]
      rw [acceptLoop_total_cost ts zone action_type rest _]

theorem sumAcceptedAt_of_not_mem {i : Nat} {acts : List (Nat × BmAction)}
    (h : ∀ p ∈ acts, p.1 ≠ i) : sumAcceptedAt i acts = 0 := by
  unfold sumAcceptedAt
  rw [List.filter_eq_nil_iff.mpr fun p hp => by simpa using h p hp]
  rfl

theorem sumAcceptedAt_cons (i : Nat) (p : Nat × BmAction) (acts : List (Nat × BmAction)) :
    sumAcceptedAt i (p :: acts)
      = (if p.1 == i then p.2.volume_mwh else 0) + sumAcceptedAt i acts := by
  unfold sumAcceptedAt
  simp only [List.filter_cons]
  cases hc : (p.1 == i) with
  | true => simp [hc]
  | false => simp [hc]

theorem sumAcceptedAt_single {i : Nat} {a : BmAction} :
    ∀ {acts : List (Nat × BmAction)}, (acts.map Prod.fst).Nodup → (i, a) ∈ acts →
      sumAcceptedAt i acts = a.volume_mwh := by
  intro acts
  induction acts with
  | nil => intro _ hmem; cases hmem
  | cons p rest ih =>
    intro hnd hmem
    obtain ⟨hnd1, hnd2⟩ := List.nodup_cons.mp
      (show (p.1 :: rest.map Prod.fst).Nodup by simpa using hnd)
    rw [sumAcceptedAt_cons]
    rcases List.mem_cons.mp hmem with h | h
    · have hp1 : p.1 = i := by rw [← h]
      have hrest : ∀ q ∈ rest, q.1 ≠ i := by
        intro q hq hqi
        apply hnd1
        rw [hp1, ← hqi]
        exact List.mem_map_of_mem Prod.fst hq
      rw [sumAcceptedAt_of_not_mem hrest, if_pos (beq_iff_eq.mpr hp1), ← h]
      simp
    · have hne : p.1 ≠ i := by
        intro hpi
        apply hnd1
        rw [hpi]
        simpa using List.mem_map_of_mem Prod.fst h
      rw [if_neg (by simpa using hne), ih hnd2 h]
      simp

theorem mem_keyed_unique {α : Type} :
    ∀ {L : List (Nat × α)}, (L.map Prod.fst).Nodup →
      ∀ {i : Nat} {a b : α}, (i, a) ∈ L → (i, b) ∈ L → a = b := by
  intro L
  induction L with
  | nil => intro _ i a b ha; cases ha
  | cons p rest ih =>
    intro hnd i a b ha hb
    obtain ⟨hnd1, hnd2⟩ := List.nodup_cons.mp
      (show (p.1 :: rest.map Prod.fst).Nodup by simpa using hnd)
    rcases List.mem_cons.mp ha with ha | ha <;> rcases List.mem_cons.mp hb with hb | hb
    · rw [← ha] at hb
      exact ((Prod.ext_iff.mp hb).2).symm
    · exfalso
      apply hnd1
      rw [show p.1 = i by rw [← ha]]
      simpa using List.mem_map_of_mem Prod.fst hb
    · exfalso
      apply hnd1
      rw [show p.1 = i by rw [← hb]]
      simpa using List.mem_map_of_mem Prod.fst ha
    · exact ih hnd2 ha hb

theorem removeAccepted_eq_filter (ts : Nat) :
    ∀ (actions : List BmAction) (pool : List Entry),
      removeAccepted ts pool actions
        = pool.filter fun e => !(actions.any fun a => matchesBmAction ts a e)
  | [], pool => by simp [removeAccepted]
  | a :: acts, pool => by
    have step : removeAccepted ts pool (a :: acts)
        = removeAccepted ts (pool.filter fun e => !(matchesBmAction ts a e)) acts := rfl
    rw [step, removeAccepted_eq_filter ts acts, List.filter_filter]
    refine List.filter_congr fun e _ => ?_
    simp only [List.any_cons, Bool.not_or, Bool.and_comm]

theorem acceptLoop_keys_nodup (ts : Nat) (zone action_type : String)
    {rows : List (Nat × Entry)} {rem : ℚ} (hnd : (rows.map Prod.fst).Nodup) :
    ((acceptLoop ts zone action_type rows rem).1.map Prod.fst).Nodup := by
  have hsub := (acceptLoop_sublist ts zone action_type rows rem).map Prod.fst
  simp only [List.map_map] at hsub
  have h1 : ((acceptLoop ts zone action_type rows rem).1.map Prod.fst).Sublist
      (rows.map Prod.fst) := hsub
  exact h1.nodup hnd

theorem sortAsc_keys_nodup (l : List Entry) :
    ((sortStackAsc l.enum).map Prod.fst).Nodup :=
  (((sortStackAsc_perm l.enum).map Prod.fst).nodup_iff).mpr (enum_fst_nodup l)

theorem sortDesc_keys_nodup (l : List Entry) :
    ((sortStackDesc l.enum).map Prod.fst).Nodup := by
  unfold sortStackDesc
  rw [List.map_reverse]
  exact List.nodup_reverse.mpr (sortAsc_keys_nodup l)

theorem applyDecrements_nil (stack : List Entry) : applyDecrements stack [] = stack := by
  unfold applyDecrements
  have h : ∀ p ∈ stack.enum,
      ({ p.2 with volume_mw := p.2.volume_mw - sumAcceptedAt p.1 [] } : Entry)
        = Prod.snd p := by
    intro p _
    simp [sumAcceptedAt]
  rw [List.map_congr_left h, List.enum_map_snd]

theorem acceptLoop_nil_of_nonpos (ts : Nat) (zone action_type : String)
    (rows : List (Nat × Entry)) {rem : ℚ} (h : rem ≤ 0) :
    acceptLoop ts zone action_type rows rem = ([], rem, 0) :=
  acceptLoop_break ts zone action_type rows (h.trans (by norm_num))

theorem clear_zone_upward_actions (required_volume : ℚ) (stack : List Entry)
    (zone : String) (ts : Nat) :
    (clear_zone_upward required_volume stack zone ts).accepted_actions
      = ((acceptLoop ts zone "offer" (sortStackAsc stack.enum) required_volume).1).map
          Prod.snd := by
  unfold clear_zone_upward
  split_ifs with hguard
  · rcases hguard with hempty | hneg
    · rw [List.isEmpty_iff.mp hempty]
      rfl
    · rw [acceptLoop_nil_of_nonpos ts zone "offer" _ hneg]
      rfl
  · rfl

theorem clear_zone_downward_actions (required_volume : ℚ) (stack : List Entry)
    (zone : String) (ts : Nat) :
    (clear_zone_downward required_volume stack zone ts).accepted_actions
      = ((acceptLoop ts zone "bid" (sortStackDesc stack.enum) required_volume).1).map
          Prod.snd := by
  unfold clear_zone_downward
  split_ifs with hguard
  · rcases hguard with hempty | hneg
    · rw [List.isEmpty_iff.mp hempty]
      rfl
    · rw [acceptLoop_nil_of_nonpos ts zone "bid" _ hneg]
      rfl
  · rfl

theorem clear_zone_upward_stack (required_volume : ℚ) (stack : List Entry)
    (zone : String) (ts : Nat) :
    (clear_zone_upward required_volume stack zone ts).stack_after
      = applyDecrements stack
          (acceptLoop ts zone "offer" (sortStackAsc stack.enum) required_volume).1 := by
  unfold clear_zone_upward
  split_ifs with hguard
  · rcases hguard with hempty | hneg
    · rw [List.isEmpty_iff.mp hempty]
      rfl
    · rw [acceptLoop_nil_of_nonpos ts zone "offer" _ hneg, applyDecrements_nil]
  · rfl

theorem clear_zone_downward_stack (required_volume : ℚ) (stack : List Entry)
    (zone : String) (ts : Nat) :
    (clear_zone_downward required_volume stack zone ts).stack_after
      = applyDecrements stack
          (acceptLoop ts zone "bid" (sortStackDesc stack.enum) required_volume).1 := by
  unfold clear_zone_downward
  split_ifs with hguard
  · rcases hguard with hempty | hneg
    · rw [List.isEmpty_iff.mp hempty]
      rfl
    · rw [acceptLoop_nil_of_nonpos ts zone "bid" _ hneg, applyDecrements_nil]
  · rfl

theorem clear_zone_upward_total (required_volume : ℚ) (stack : List Entry)
    (zone : String) (ts : Nat) :
    (clear_zone_upward required_volume stack zone ts).total_cost
      = (acceptLoop ts zone "offer" (sortStackAsc stack.enum) required_volume).2.2 := by
  unfold clear_zone_upward
  split_ifs with hguard
  · rcases hguard with hempty | hneg
    · rw [List.isEmpty_iff.mp hempty]
      rfl
    · rw [acceptLoop_nil_of_nonpos ts zone "offer" _ hneg]
  · rfl

theorem clear_zone_downward_total (required_volume : ℚ) (stack : List Entry)
    (zone : String) (ts : Nat) :
    (clear_zone_downward required_volume stack zone ts).total_cost
      = (acceptLoop ts zone "bid" (sortStackDesc stack.enum) required_volume).2.2 := by
  unfold clear_zone_downward
  split_ifs with hguard
  · rcases hguard with hempty | hneg
    · rw [List.isEmpty_iff.mp hempty]
      rfl
    · rw [acceptLoop_nil_of_nonpos ts zone "bid" _ hneg]
  · rfl

/-- C1, counterexample to the claim as stated: called with required volume
`-1` (and, say, an empty stack) the routine returns `cleared_volume = 0`,
which is strictly greater than the required volume, so
`cleared_volume ≤ required_volume` fails for this call (conservation itself
still holds there: `0 + (-1) = -1`). -/
theorem C1_counterexample :
    (clear_zone_upward (-1) [] "red" 0).cleared_volume = 0 ∧
    (clear_zone_upward (-1) [] "red" 0).uncleared_volume = -1 ∧
    ¬ ((clear_zone_upward (-1) [] "red" 0).cleared_volume ≤ -1) := by
  refine ⟨by with_unfolding_all rfl, by with_unfolding_all rfl, ?_⟩
  with_unfolding_all decide

/-- C1 (amended): for every call to `clear_zone_upward` or
`clear_zone_downward`, `cleared_volume + uncleared_volume` equals the required
volume exactly (hence within any tolerance), and whenever the required volume
is non-negative — in particular on every call the period loop makes, which
requires it to exceed 0.1 — `cleared_volume ≤ required_volume`. -/
theorem C1_conservation (required_volume : ℚ) (stack : List Entry)
    (zone : String) (ts : Nat) :
    ((clear_zone_upward required_volume stack zone ts).cleared_volume
        + (clear_zone_upward required_volume stack zone ts).uncleared_volume
        = required_volume) ∧
    ((clear_zone_downward required_volume stack zone ts).cleared_volume
        + (clear_zone_downward required_volume stack zone ts).uncleared_volume
        = required_volume) ∧
    (0 ≤ required_volume →
      (clear_zone_upward required_volume stack zone ts).cleared_volume
          ≤ required_volume ∧
      (clear_zone_downward required_volume stack zone ts).cleared_volume
          ≤ required_volume) := by
  refine ⟨?_, ?_, fun hnonneg => ⟨?_, ?_⟩⟩
  · unfold clear_zone_upward
    split_ifs <;> simp
  · unfold clear_zone_downward
    split_ifs <;> simp
  · unfold clear_zone_upward
    split_ifs <;> simp [hnonneg, sub_le_self_iff, le_max_iff]
  · unfold clear_zone_downward
    split_ifs <;> simp [hnonneg, sub_le_self_iff, le_max_iff]

/-- C1 witness: the amended theorem applied at required volume 100 and a
one-offer stack. -/
theorem C1_conservation_witness :
    ((clear_zone_upward 100 [⟨0, "X", 1, 25, 120, "z", "g"⟩] "z" 0).cleared_volume
        + (clear_zone_upward 100 [⟨0, "X", 1, 25, 120, "z", "g"⟩] "z" 0).uncleared_volume
        = 100) ∧
    (clear_zone_upward 100 [⟨0, "X", 1, 25, 120, "z", "g"⟩] "z" 0).cleared_volume ≤ 100 := by
  have h := C1_conservation 100 [⟨0, "X", 1, 25, 120, "z", "g"⟩] "z" 0
  exact ⟨h.1, (h.2.2 (by norm_num)).1⟩

/-- C3: the accepted actions of `clear_zone_upward`, in emission order, have
non-decreasing prices, and those of `clear_zone_downward` non-increasing
prices. -/
theorem C3_price_monotone (required_volume : ℚ) (stack : List Entry)
    (zone : String) (ts : Nat) :
    (((clear_zone_upward required_volume stack zone ts).accepted_actions.map
        fun a => a.price_per_mwh).Pairwise fun p q => p ≤ q) ∧
    (((clear_zone_downward required_volume stack zone ts).accepted_actions.map
        fun a => a.price_per_mwh).Pairwise fun p q => q ≤ p) := by
  have hasc : ((sortStackAsc stack.enum).map fun p => (p.1, p.2.price)).Pairwise
      (fun a b : Nat × ℚ => a.2 ≤ b.2) :=
    List.pairwise_map.mpr (sortStackAsc_sorted stack.enum)
  constructor
  · rw [clear_zone_upward_actions, List.map_map]
    have hout := List.Pairwise.sublist
      (acceptLoop_sublist ts zone "offer" (sortStackAsc stack.enum) required_volume) hasc
    have := List.pairwise_map.mp hout
    apply List.pairwise_map.mpr
    simpa using this
  · rw [clear_zone_downward_actions, List.map_map]
    have hdesc : ((sortStackDesc stack.enum).map fun p => (p.1, p.2.price)).Pairwise
        (fun a b : Nat × ℚ => b.2 ≤ a.2) := by
      unfold sortStackDesc
      rw [List.map_reverse]
      exact List.pairwise_reverse.mpr hasc
    have hout := List.Pairwise.sublist
      (acceptLoop_sublist ts zone "bid" (sortStackDesc stack.enum) required_volume) hdesc
    have := List.pairwise_map.mp hout
    apply List.pairwise_map.mpr
    simpa using this

/-- C4: every accepted action's `cost_gbp` equals
`price_per_mwh * volume_mwh * 0.5`, the returned `total_cost` is the sum of
the emitted actions' costs (for both clearing directions), and on the upward
stack `[(X,25,120),(Y,15,90),(Z,35,110)]` with required volume 100 the routine
accepts 90 from Y at 15 then 10 from X at 25, returning cleared 100,
uncleared 0 and cost 800. -/
theorem C4_costs (required_volume : ℚ) (stack : List Entry)
    (zone : String) (ts : Nat) :
    (((clear_zone_upward required_volume stack zone ts).accepted_actions.map
          fun a => a.cost_gbp)
        = ((clear_zone_upward required_volume stack zone ts).accepted_actions.map
          fun a => a.price_per_mwh * a.volume_mwh * (1/2))) ∧
    ((clear_zone_upward required_volume stack zone ts).total_cost
        = ((clear_zone_upward required_volume stack zone ts).accepted_actions.map
          fun a => a.cost_gbp).sum) ∧
    (((clear_zone_downward required_volume stack zone ts).accepted_actions.map
          fun a => a.cost_gbp)
        = ((clear_zone_downward required_volume stack zone ts).accepted_actions.map
          fun a => a.price_per_mwh * a.volume_mwh * (1/2))) ∧
    ((clear_zone_downward required_volume stack zone ts).total_cost
        = ((clear_zone_downward required_volume stack zone ts).accepted_actions.map
          fun a => a.cost_gbp).sum) ∧
    ((clear_zone_upward 100
        [⟨0, "X", 1, 25, 120, "zoneA", "t1"⟩, ⟨0, "Y", 2, 15, 90, "zoneA", "t2"⟩,
         ⟨0, "Z", 3, 35, 110, "zoneA", "t3"⟩] "zoneA" 0).cleared_volume = 100 ∧
     (clear_zone_upward 100
        [⟨0, "X", 1, 25, 120, "zoneA", "t1"⟩, ⟨0, "Y", 2, 15, 90, "zoneA", "t2"⟩,
         ⟨0, "Z", 3, 35, 110, "zoneA", "t3"⟩] "zoneA" 0).uncleared_volume = 0 ∧
     (clear_zone_upward 100
        [⟨0, "X", 1, 25, 120, "zoneA", "t1"⟩, ⟨0, "Y", 2, 15, 90, "zoneA", "t2"⟩,
         ⟨0, "Z", 3, 35, 110, "zoneA", "t3"⟩] "zoneA" 0).total_cost = 800 ∧
     (clear_zone_upward 100
        [⟨0, "X", 1, 25, 120, "zoneA", "t1"⟩, ⟨0, "Y", 2, 15, 90, "zoneA", "t2"⟩,
         ⟨0, "Z", 3, 35, 110, "zoneA", "t3"⟩] "zoneA" 0).accepted_actions
       = [⟨0, "zoneA", "Y", "t2", 2, "offer", 90, 15, 675⟩,
          ⟨0, "zoneA", "X", "t1", 1, "offer", 10, 25, 125⟩]) := by
  refine ⟨?_, ?_, ?_, ?_, by with_unfolding_all rfl, by with_unfolding_all rfl,
    by with_unfolding_all rfl, by with_unfolding_all rfl⟩
  · rw [clear_zone_upward_actions, List.map_map, List.map_map]
    exact List.map_congr_left fun p hp =>
      acceptLoop_cost_formula ts zone "offer" _ required_volume p hp
  · rw [clear_zone_upward_actions, clear_zone_upward_total, List.map_map]
    exact acceptLoop_total_cost ts zone "offer" _ required_volume
  · rw [clear_zone_downward_actions, List.map_map, List.map_map]
    exact List.map_congr_left fun p hp =>
      acceptLoop_cost_formula ts zone "bid" _ required_volume p hp
  · rw [clear_zone_downward_actions, clear_zone_downward_total, List.map_map]
    exact acceptLoop_total_cost ts zone "bid" _ required_volume

/-- C7: with an empty stack or a non-positive required volume, both routines
return cleared 0, uncleared equal to the required volume as passed, cost 0, no
actions, and the stack exactly as it was handed in. -/
theorem C7_noop (required_volume : ℚ) (stack : List Entry) (zone : String)
    (ts : Nat) (h : stack = [] ∨ required_volume ≤ 0) :
    clear_zone_upward required_volume stack zone ts
        = { cleared_volume := 0, uncleared_volume := required_volume,
            total_cost := 0, accepted_actions := [], stack_after := stack } ∧
    clear_zone_downward required_volume stack zone ts
        = { cleared_volume := 0, uncleared_volume := required_volume,
            total_cost := 0, accepted_actions := [], stack_after := stack } := by
  have hg : stack.isEmpty = true ∨ required_volume ≤ 0 := by
    rcases h with h | h
    · exact Or.inl (by simp [h])
    · exact Or.inr h
  constructor
  · unfold clear_zone_upward
    rw [if_pos hg]
  · unfold clear_zone_downward
    rw [if_pos hg]

/-- C7 witness: the theorem applied at required volume `-2` and a non-empty
one-entry stack. -/
theorem C7_noop_witness :
    clear_zone_upward (-2) [⟨0, "X", 1, 25, 120, "z", "g"⟩] "z" 0
      = { cleared_volume := 0, uncleared_volume := -2, total_cost := 0,
          accepted_actions := [],
          stack_after := [⟨0, "X", 1, 25, 120, "z", "g"⟩] } :=
  (C7_noop (-2) [⟨0, "X", 1, 25, 120, "z", "g"⟩] "z" 0 (Or.inr (by norm_num))).1

/-- C9, counterexample to the claim as stated: two equal-priced bids (A first,
B second, both at price 50) cleared downward are accepted in the order B then
A — the reverse of their arrival order — because pandas implements the
descending sort as the reverse of the ascending argsort. -/
theorem C9_counterexample :
    ((clear_zone_downward 8
        [⟨0, "A", 1, 50, 5, "red", "g"⟩, ⟨0, "B", 2, 50, 5, "red", "g"⟩]
        "red" 0).accepted_actions.map fun a => a.unit_id) = ["B", "A"] ∧
    (["B", "A"] : List String) ≠ ["A", "B"] := by
  constructor
  · with_unfolding_all rfl
  · decide

/-- C9 (amended): there is no additional tie-break key, and within the regime
where the source's sort is actually deterministic on ties — numpy's default
`quicksort` argsort is a stable insertion sort only for stacks of at most 16
rows, and beyond that the order of equal prices is implementation-defined —
upward clearing accepts equal-priced entries in arrival order, while downward
clearing accepts them in reverse arrival order, because pandas implements the
descending sort as the reverse of the ascending argsort.  Stated on the
indexed acceptance walk, whose projection is exactly each routine's
accepted-action list (first two conjuncts, unconditional); `p.1` is the
arrival position of the entry the action was carved from. -/
theorem C9_tie_order (required_volume : ℚ) (stack : List Entry)
    (zone : String) (ts : Nat) :
    ((clear_zone_upward required_volume stack zone ts).accepted_actions
        = ((acceptLoop ts zone "offer" (sortStackAsc stack.enum)
            required_volume).1).map Prod.snd) ∧
    ((clear_zone_downward required_volume stack zone ts).accepted_actions
        = ((acceptLoop ts zone "bid" (sortStackDesc stack.enum)
            required_volume).1).map Prod.snd) ∧
    (stack.length ≤ 16 →
      ((acceptLoop ts zone "offer" (sortStackAsc stack.enum)
          required_volume).1.Pairwise
          fun p q => p.2.price_per_mwh = q.2.price_per_mwh → p.1 < q.1) ∧
      ((acceptLoop ts zone "bid" (sortStackDesc stack.enum)
          required_volume).1.Pairwise
          fun p q => p.2.price_per_mwh = q.2.price_per_mwh → q.1 < p.1)) := by
  have hstable := sortStackAsc_stable (enum_pairwise_fst stack)
  refine ⟨clear_zone_upward_actions required_volume stack zone ts,
    clear_zone_downward_actions required_volume stack zone ts,
    fun hlen => ⟨?_, ?_⟩⟩
  · have hmap : ((sortStackAsc stack.enum).map fun p => (p.1, p.2.price)).Pairwise
        (fun a b : Nat × ℚ => a.2 = b.2 → a.1 < b.1) :=
      List.pairwise_map.mpr hstable
    have hout := List.Pairwise.sublist
      (acceptLoop_sublist ts zone "offer" (sortStackAsc stack.enum) required_volume) hmap
    have := List.pairwise_map.mp hout
    simpa using this
  · have hdesc : (sortStackDesc stack.enum).Pairwise
        (fun p q : Nat × Entry => p.2.price = q.2.price → q.1 < p.1) := by
      unfold sortStackDesc
      exact List.pairwise_reverse.mpr (hstable.imp fun h heq => h heq.symm)
    have hmap : ((sortStackDesc stack.enum).map fun p => (p.1, p.2.price)).Pairwise
        (fun a b : Nat × ℚ => a.2 = b.2 → b.1 < a.1) :=
      List.pairwise_map.mpr hdesc
    have hout := List.Pairwise.sublist
      (acceptLoop_sublist ts zone "bid" (sortStackDesc stack.enum) required_volume) hmap
    have := List.pairwise_map.mp hout
    simpa using this

/-- C9 witness: the amended theorem applied to the two-entry equal-price stack
of the counterexample (well inside the 16-row insertion-sort regime). -/
theorem C9_tie_order_witness :
    ((acceptLoop 0 "red" "offer"
        (sortStackAsc ([⟨0, "A", 1, 50, 5, "red", "g"⟩,
          ⟨0, "B", 2, 50, 5, "red", "g"⟩] : List Entry).enum) 8).1.Pairwise
        fun p q => p.2.price_per_mwh = q.2.price_per_mwh → p.1 < q.1) ∧
    ((acceptLoop 0 "red" "bid"
        (sortStackDesc ([⟨0, "A", 1, 50, 5, "red", "g"⟩,
          ⟨0, "B", 2, 50, 5, "red", "g"⟩] : List Entry).enum) 8).1.Pairwise
        fun p q => p.2.price_per_mwh = q.2.price_per_mwh → q.1 < p.1) :=
  (C9_tie_order 8 [⟨0, "A", 1, 50, 5, "red", "g"⟩,
    ⟨0, "B", 2, 50, 5, "red", "g"⟩] "red" 0).2.2 (by decide)

theorem classify_unit_to_zone_none {unit_id : String} {table : String → Option BmuRow}
    (h : table unit_id = none) : classify_unit_to_zone unit_id table = "unknown" := by
  unfold classify_unit_to_zone
  rw [h]

theorem classify_unit_to_zone_some {unit_id : String} {table : String → Option BmuRow}
    {row : BmuRow} (h : table unit_id = some row) :
    classify_unit_to_zone unit_id table
      = (if row.sse_sp_side == some "north" then "red"
         else if row.scotex_side == some "north" then "orange"
         else if row.ssharn_side == some "north" then "green"
         else if row.flowsth_side == some "north" then "blue"
         else if row.seimp_side == some "north" then "purple"
         else "yellow") := by
  unfold classify_unit_to_zone
  rw [h]

theorem classifySpec_none {unit_id : String} {table : String → Option BmuRow}
    (h : table unit_id = none) : classifySpec unit_id table = "unknown" := by
  unfold classifySpec
  rw [h]

theorem classifySpec_some {unit_id : String} {table : String → Option BmuRow}
    {row : BmuRow} (h : table unit_id = some row) :
    classifySpec unit_id table
      = (match boundaryZones.find? fun b => b.1 row == some "north" with
         | some b => b.2
         | none => "yellow") := by
  unfold classifySpec
  rw [h]

/-- C5: `classify_unit_to_zone` is total and agrees with the spec-side scan
returning the zone of the first boundary (north-to-south order SSE-SP, SCOTEX,
SSHARN, FLOWSTH, SEIMP giving red, orange, green, blue, purple) whose side is
`north`, `yellow` when none is, and it returns `unknown` exactly when the
participant has no row in the classification table. -/
theorem C5_classifier (unit_id : String) (table : String → Option BmuRow) :
    classify_unit_to_zone unit_id table = classifySpec unit_id table ∧
    (classify_unit_to_zone unit_id table = "unknown" ↔ table unit_id = none) := by
  cases htab : table unit_id with
  | none => simp [classify_unit_to_zone_none htab, classifySpec_none htab]
  | some row =>
    rw [classify_unit_to_zone_some htab, classifySpec_some htab]
    constructor
    · by_cases h1 : row.sse_sp_side == some "north"
      · simp [boundaryZones, List.find?, h1]
      · by_cases h2 : row.scotex_side == some "north"
        · simp [boundaryZones, List.find?, h1, h2]
        · by_cases h3 : row.ssharn_side == some "north"
          · simp [boundaryZones, List.find?, h1, h2, h3]
          · by_cases h4 : row.flowsth_side == some "north"
            · simp [boundaryZones, List.find?, h1, h2, h3, h4]
            · by_cases h5 : row.seimp_side == some "north"
              · simp [boundaryZones, List.find?, h1, h2, h3, h4, h5]
              · simp [boundaryZones, List.find?, h1, h2, h3, h4, h5]
    · constructor
      · intro h
        exfalso
        revert h
        split_ifs <;> intro h <;> exact absurd h (by decide)
      · intro h
        exact Option.noConfusion h

theorem processZone_down (zv : List ZoneVolRow) (ts : Nat) (st : PeriodState)
    (zone : String) (hdown : (flexOf zv ts zone).2 > 1/10) :
    processZone zv ts st zone
      = ZoneOutcome.mk
          (PeriodState.mk
            (removeAccepted ts st.available_bids
              (clear_zone_downward (flexOf zv ts zone).2 (zoneBids st zone) zone
                ts).accepted_actions)
            st.available_offers)
          (mkSettlementRow ts zone "down" (flexOf zv ts zone).2
            (clear_zone_downward (flexOf zv ts zone).2 (zoneBids st zone) zone ts))
          (clear_zone_downward (flexOf zv ts zone).2 (zoneBids st zone)
            zone ts).accepted_actions
          (mkUnclearedRows ts zone "down"
            (clear_zone_downward (flexOf zv ts zone).2 (zoneBids st zone) zone ts)) := by
  simp only [processZone]
  rw [if_pos (by simpa [flexOf] using hdown)]
  simp [flexOf, zoneBids]

theorem processZone_up (zv : List ZoneVolRow) (ts : Nat) (st : PeriodState)
    (zone : String) (hnd : ¬ (flexOf zv ts zone).2 > 1/10)
    (hup : (flexOf zv ts zone).1 > 1/10) :
    processZone zv ts st zone
      = ZoneOutcome.mk
          (PeriodState.mk st.available_bids
            (removeAccepted ts st.available_offers
              (clear_zone_upward (flexOf zv ts zone).1 (zoneOffers st zone) zone
                ts).accepted_actions))
          (mkSettlementRow ts zone "up" (flexOf zv ts zone).1
            (clear_zone_upward (flexOf zv ts zone).1 (zoneOffers st zone) zone ts))
          (clear_zone_upward (flexOf zv ts zone).1 (zoneOffers st zone)
            zone ts).accepted_actions
          (mkUnclearedRows ts zone "up"
            (clear_zone_upward (flexOf zv ts zone).1 (zoneOffers st zone) zone ts)) := by
  simp only [processZone]
  rw [if_neg (by simpa [flexOf] using hnd), if_pos (by simpa [flexOf] using hup)]
  simp [flexOf, zoneOffers]

theorem processZone_none (zv : List ZoneVolRow) (ts : Nat) (st : PeriodState)
    (zone : String) (hnd : ¬ (flexOf zv ts zone).2 > 1/10)
    (hnu : ¬ (flexOf zv ts zone).1 > 1/10) :
    processZone zv ts st zone
      = ZoneOutcome.mk st (mkSettlementRow ts zone "none" 0 noneResult) [] [] := by
  simp only [processZone]
  rw [if_neg (by simpa [flexOf] using hnd), if_neg (by simpa [flexOf] using hnu)]

/-- C2: the zone loop's direction choice is mutually exclusive and
order-sensitive — a downward requirement above 0.1 MWh is cleared with the
zone's bids whatever the upward requirement is; otherwise an upward requirement
above 0.1 MWh is cleared with the zone's offers; otherwise the row records
direction `none` with required, cleared and uncleared volumes all zero; and a
(period, zone) pair absent from the requirement table behaves exactly like a
zero requirement rather than raising. -/
theorem C2_direction (zv : List ZoneVolRow) (ts : Nat) (st : PeriodState)
    (zone : String) :
    ((flexOf zv ts zone).2 > 1/10 →
      (processZone zv ts st zone).row.direction = "down" ∧
      (processZone zv ts st zone).row.required_volume_mwh = (flexOf zv ts zone).2 ∧
      (processZone zv ts st zone).actions
        = (clear_zone_downward (flexOf zv ts zone).2 (zoneBids st zone) zone
            ts).accepted_actions ∧
      (processZone zv ts st zone).row.cleared_volume_mwh
        = (clear_zone_downward (flexOf zv ts zone).2 (zoneBids st zone) zone
            ts).cleared_volume ∧
      (processZone zv ts st zone).row.uncleared_volume_mwh
        = (clear_zone_downward (flexOf zv ts zone).2 (zoneBids st zone) zone
            ts).uncleared_volume) ∧
    (¬ (flexOf zv ts zone).2 > 1/10 → (flexOf zv ts zone).1 > 1/10 →
      (processZone zv ts st zone).row.direction = "up" ∧
      (processZone zv ts st zone).row.required_volume_mwh = (flexOf zv ts zone).1 ∧
      (processZone zv ts st zone).actions
        = (clear_zone_upward (flexOf zv ts zone).1 (zoneOffers st zone) zone
            ts).accepted_actions ∧
      (processZone zv ts st zone).row.cleared_volume_mwh
        = (clear_zone_upward (flexOf zv ts zone).1 (zoneOffers st zone) zone
            ts).cleared_volume ∧
      (processZone zv ts st zone).row.uncleared_volume_mwh
        = (clear_zone_upward (flexOf zv ts zone).1 (zoneOffers st zone) zone
            ts).uncleared_volume) ∧
    (¬ (flexOf zv ts zone).2 > 1/10 → ¬ (flexOf zv ts zone).1 > 1/10 →
      (processZone zv ts st zone).row.direction = "none" ∧
      (processZone zv ts st zone).row.required_volume_mwh = 0 ∧
      (processZone zv ts st zone).row.cleared_volume_mwh = 0 ∧
      (processZone zv ts st zone).row.uncleared_volume_mwh = 0 ∧
      (processZone zv ts st zone).actions = [] ∧
      (processZone zv ts st zone).state = st) ∧
    (lookupZoneVol zv ts zone = none →
      (processZone zv ts st zone).row.direction = "none" ∧
      (processZone zv ts st zone).row.required_volume_mwh = 0 ∧
      (processZone zv ts st zone).row.cleared_volume_mwh = 0 ∧
      (processZone zv ts st zone).row.uncleared_volume_mwh = 0 ∧
      (processZone zv ts st zone).actions = [] ∧
      (processZone zv ts st zone).state = st) := by
  refine ⟨fun hdown => ?_, fun hnd hup => ?_, fun hnd hnu => ?_, fun hnone => ?_⟩
  · rw [processZone_down zv ts st zone hdown]
    exact ⟨rfl, rfl, rfl, rfl, rfl⟩
  · rw [processZone_up zv ts st zone hnd hup]
    exact ⟨rfl, rfl, rfl, rfl, rfl⟩
  · rw [processZone_none zv ts st zone hnd hnu]
    exact ⟨rfl, rfl, rfl, rfl, rfl, rfl⟩
  · have h0 : flexOf zv ts zone = (0, 0) := by simp [flexOf, hnone]
    rw [processZone_none zv ts st zone (by rw [h0]; norm_num) (by rw [h0]; norm_num)]
    exact ⟨rfl, rfl, rfl, rfl, rfl, rfl⟩

/-- C2 witness: the theorem applied to a downward requirement of 5 MWh, an
upward requirement of 7 MWh, a present all-zero requirement, and a missing
requirement row. -/
theorem C2_direction_witness :
    (processZone [⟨0, "red", 0, 5⟩] 0
        ⟨[⟨0, "u1", 1, 25, 120, "red", "gas"⟩], []⟩ "red").row.direction = "down" ∧
    (processZone [⟨0, "red", 7, 0⟩] 0
        ⟨[], [⟨0, "u2", 2, 30, 50, "red", "gas"⟩]⟩ "red").row.direction = "up" ∧
    (processZone [⟨0, "red", 0, 0⟩] 0 ⟨[], []⟩ "red").row.direction = "none" ∧
    (processZone [] 0 ⟨[], []⟩ "red").row.direction = "none" := by
  refine ⟨((C2_direction [⟨0, "red", 0, 5⟩] 0
      ⟨[⟨0, "u1", 1, 25, 120, "red", "gas"⟩], []⟩ "red").1
      (by with_unfolding_all decide)).1, ?_, ?_, ?_⟩
  · exact ((C2_direction [⟨0, "red", 7, 0⟩] 0
      ⟨[], [⟨0, "u2", 2, 30, 50, "red", "gas"⟩]⟩ "red").2.1
      (by with_unfolding_all decide) (by with_unfolding_all decide)).1
  · exact ((C2_direction [⟨0, "red", 0, 0⟩] 0 ⟨[], []⟩ "red").2.2.1
      (by with_unfolding_all decide) (by with_unfolding_all decide)).1
  · exact ((C2_direction [] 0 ⟨[], []⟩ "red").2.2.2 rfl).1

/-- C10: after a zone is cleared, the period-level pool of the direction that
was cleared equals its previous value filtered to the rows matching no
accepted action (match key: unit id, pair id, timestamp) — so every row from
which any slice was accepted, even partially, is dropped entirely, surviving
rows are the original records with their volumes untouched (the in-place
decrement only ever hit the zone-filtered copy handed to the routine), and the
opposite-direction pool is left alone; when no direction is cleared the whole
state is unchanged. -/
theorem C10_period_pool (zv : List ZoneVolRow) (ts : Nat) (st : PeriodState)
    (zone : String) :
    ((flexOf zv ts zone).2 > 1/10 →
      (processZone zv ts st zone).state.available_bids
        = st.available_bids.filter (fun e =>
            !((processZone zv ts st zone).actions.any fun a =>
              matchesBmAction ts a e)) ∧
      (processZone zv ts st zone).state.available_offers = st.available_offers) ∧
    (¬ (flexOf zv ts zone).2 > 1/10 → (flexOf zv ts zone).1 > 1/10 →
      (processZone zv ts st zone).state.available_offers
        = st.available_offers.filter (fun e =>
            !((processZone zv ts st zone).actions.any fun a =>
              matchesBmAction ts a e)) ∧
      (processZone zv ts st zone).state.available_bids = st.available_bids) ∧
    (¬ (flexOf zv ts zone).2 > 1/10 → ¬ (flexOf zv ts zone).1 > 1/10 →
      (processZone zv ts st zone).state = st) := by
  refine ⟨fun hdown => ?_, fun hnd hup => ?_, fun hnd hnu => ?_⟩
  · rw [processZone_down zv ts st zone hdown]
    exact ⟨removeAccepted_eq_filter ts _ _, rfl⟩
  · rw [processZone_up zv ts st zone hnd hup]
    exact ⟨removeAccepted_eq_filter ts _ _, rfl⟩
  · rw [processZone_none zv ts st zone hnd hnu]

/-- C10 witness: the theorem applied to a downward clearing that partially
fills the single bid (its whole row disappears from the pool), an upward
clearing, and a no-requirement zone. -/
theorem C10_period_pool_witness :
    (processZone [⟨0, "red", 0, 5⟩] 0
        ⟨[⟨0, "u1", 1, 25, 120, "red", "gas"⟩], []⟩ "red").state.available_bids
      = [⟨0, "u1", 1, 25, 120, "red", "gas"⟩].filter (fun e =>
          !((processZone [⟨0, "red", 0, 5⟩] 0
              ⟨[⟨0, "u1", 1, 25, 120, "red", "gas"⟩], []⟩ "red").actions.any fun a =>
            matchesBmAction 0 a e)) ∧
    (processZone [⟨0, "red", 7, 0⟩] 0
        ⟨[], [⟨0, "u2", 2, 30, 50, "red", "gas"⟩]⟩ "red").state.available_offers
      = [⟨0, "u2", 2, 30, 50, "red", "gas"⟩].filter (fun e =>
          !((processZone [⟨0, "red", 7, 0⟩] 0
              ⟨[], [⟨0, "u2", 2, 30, 50, "red", "gas"⟩]⟩ "red").actions.any fun a =>
            matchesBmAction 0 a e)) ∧
    (processZone [] 0 ⟨[], []⟩ "red").state = PeriodState.mk [] [] := by
  refine ⟨((C10_period_pool [⟨0, "red", 0, 5⟩] 0
      ⟨[⟨0, "u1", 1, 25, 120, "red", "gas"⟩], []⟩ "red").1
      (by with_unfolding_all decide)).1, ?_, ?_⟩
  · exact ((C10_period_pool [⟨0, "red", 7, 0⟩] 0
      ⟨[], [⟨0, "u2", 2, 30, 50, "red", "gas"⟩]⟩ "red").2.1
      (by with_unfolding_all decide) (by with_unfolding_all decide)).1
  · exact (C10_period_pool [] 0 ⟨[], []⟩ "red").2.2
      (by with_unfolding_all decide) (by with_unfolding_all decide)

/-- C8, counterexample to the claim as stated: a downward requirement of
10 MWh takes a 10 MWh slice from a bid of 120 MWh; the claim predicts the
entry keeps volume `120 - 10 = 110` in the period-level pool, but the clearing
loop drops the partially-filled row from the pool entirely, leaving it
empty. -/
theorem C8_counterexample :
    (processZone [⟨0, "red", 0, 10⟩] 0
        ⟨[⟨0, "u1", 1, 25, 120, "red", "gas"⟩], []⟩ "red").state.available_bids
      = [] ∧
    ((processZone [⟨0, "red", 0, 10⟩] 0
        ⟨[⟨0, "u1", 1, 25, 120, "red", "gas"⟩], []⟩ "red").actions.map
        fun a => a.volume_mwh) = [10] ∧
    (120 : ℚ) - 10 ≠ 0 := by
  refine ⟨by with_unfolding_all rfl, by with_unfolding_all rfl, by norm_num⟩

/-- C8 (amended): the no-reuse invariant holds, but the exact-decrement part
of it lives on the zone-filtered frame handed to the routine, not on the
period-level pool.  (1) In the frame the routine mutates, every entry's
post-clearing volume is its original volume minus the total volume accepted
from that entry; (2) it is never negative when the incoming volumes are
non-negative; (3) at the period level, a surviving row is an original row
matching no accepted action — rows with accepted slices (partial or full) are
removed outright, so later zones of the period cannot re-use any committed
volume. -/
theorem C8_no_reuse :
    (∀ (required_volume : ℚ) (stack : List Entry) (zone : String) (ts : Nat),
      (clear_zone_upward required_volume stack zone ts).stack_after
        = stack.enum.map fun p =>
            { p.2 with volume_mw := p.2.volume_mw - sumAcceptedAt p.1 (acceptLoop ts zone "offer" (sortStackAsc stack.enum) required_volume).1 }) ∧
    (∀ (required_volume : ℚ) (stack : List Entry) (zone : String) (ts : Nat),
      (∀ e ∈ stack, 0 ≤ e.volume_mw) →
      ∀ e ∈ (clear_zone_upward required_volume stack zone ts).stack_after,
        0 ≤ e.volume_mw) ∧
    (∀ (zv : List ZoneVolRow) (ts : Nat) (st : PeriodState) (zone : String),
      (flexOf zv ts zone).2 > 1/10 →
      ∀ e ∈ (processZone zv ts st zone).state.available_bids,
        e ∈ st.available_bids ∧
        ∀ a ∈ (processZone zv ts st zone).actions,
          matchesBmAction ts a e = false) := by
  refine ⟨?_, ?_, ?_⟩
  · intro required_volume stack zone ts
    rw [clear_zone_upward_stack]
    rfl
  · intro required_volume stack zone ts hpos e he
    rw [clear_zone_upward_stack] at he
    unfold applyDecrements at he
    obtain ⟨p, hp, rfl⟩ := List.mem_map.mp he
    have hsnd : p.2 ∈ stack := by
      have := List.mem_map_of_mem Prod.snd hp
      rwa [List.enum_map_snd] at this
    by_cases hi : p.1 ∈ ((acceptLoop ts zone "offer" (sortStackAsc stack.enum)
        required_volume).1.map Prod.fst)
    · obtain ⟨q, hq, hq1⟩ := List.mem_map.mp hi
      have hknd := @acceptLoop_keys_nodup ts zone "offer"
        (sortStackAsc stack.enum) required_volume (sortAsc_keys_nodup stack)
      have hqmem : (p.1, q.2) ∈ (acceptLoop ts zone "offer" (sortStackAsc stack.enum)
          required_volume).1 := by
        have hq' : (q.1, q.2) ∈ (acceptLoop ts zone "offer" (sortStackAsc stack.enum)
            required_volume).1 := hq
        rwa [hq1] at hq'
      have hsum := sumAcceptedAt_single hknd hqmem
      obtain ⟨e', he', hposvol, hle⟩ :=
        acceptLoop_mem_volume ts zone "offer" _ required_volume (p.1, q.2) hqmem
      have he'' : (p.1, e') ∈ stack.enum :=
        (sortStackAsc_perm stack.enum).mem_iff.mp he'
      have hpmem : (p.1, p.2) ∈ stack.enum := hp
      have hee : e' = p.2 := mem_keyed_unique (enum_fst_nodup stack) he'' hpmem
      have : q.2.volume_mwh ≤ p.2.volume_mw := hee ▸ hle
      simp only [hsum]
      exact sub_nonneg.mpr this
    · have hnone : ∀ q ∈ (acceptLoop ts zone "offer" (sortStackAsc stack.enum)
          required_volume).1, q.1 ≠ p.1 :=
        fun q hq hq1 => hi (hq1 ▸ List.mem_map_of_mem Prod.fst hq)
      simp only [sumAcceptedAt_of_not_mem hnone, sub_zero]
      exact hpos p.2 hsnd
  · intro zv ts st zone hdown e he
    rw [processZone_down zv ts st zone hdown] at he ⊢
    dsimp only at he ⊢
    rw [removeAccepted_eq_filter ts _ _, List.mem_filter] at he
    refine ⟨he.1, fun a ha => ?_⟩
    have h3 : ((clear_zone_downward (flexOf zv ts zone).2 (zoneBids st zone) zone
        ts).accepted_actions.any fun a => matchesBmAction ts a e) = false := by
      simpa using he.2
    have h4 := List.any_eq_false.mp h3 a ha
    simpa using h4

/-- C8 witness: the amended theorem applied to a concrete upward clearing
(the partially filled offer keeps volume `120 - 100 = 20 ≥ 0` in the frame the
routine mutated) and to a concrete downward period clearing where the
other-zone bid survives in the period pool untouched. -/
theorem C8_no_reuse_witness :
    (0 ≤ ((⟨0, "X", 1, 25, 20, "z", "g"⟩ : Entry)).volume_mw) ∧
    ((⟨0, "u2", 2, 30, 50, "yellow", "g"⟩ : Entry)
      ∈ [(⟨0, "u1", 1, 25, 120, "red", "gas"⟩ : Entry),
         ⟨0, "u2", 2, 30, 50, "yellow", "g"⟩]) := by
  constructor
  · exact C8_no_reuse.2.1 100 [⟨0, "X", 1, 25, 120, "z", "g"⟩] "z" 0
      (by with_unfolding_all decide) _ (by with_unfolding_all decide)
  · exact (C8_no_reuse.2.2 [⟨0, "red", 0, 10⟩] 0
      ⟨[⟨0, "u1", 1, 25, 120, "red", "gas"⟩,
        ⟨0, "u2", 2, 30, 50, "yellow", "g"⟩], []⟩ "red"
      (by with_unfolding_all decide) ⟨0, "u2", 2, 30, 50, "yellow", "g"⟩
      (by with_unfolding_all decide)).1

theorem zoneFlexFold_net (w r : DispatchFrame) (ts : Nat) (gens : List String) :
    (zoneFlexFold w r ts gens).1 - (zoneFlexFold w r ts gens).2
      = (gens.map fun g => r.p ts g * (1/2) - w.p ts g * (1/2)).sum := by
  have key : ∀ (gs : List String) (acc : ℚ × ℚ),
      ((gs.foldl (fun acc gen_name =>
          let wholesale_val := w.p ts gen_name * (1/2)
          let redispatch_val := r.p ts gen_name * (1/2)
          let change := redispatch_val - wholesale_val
          if change > 0 then (acc.1 + change, acc.2) else (acc.1, acc.2 + |change|))
        acc).1
      - (gs.foldl (fun acc gen_name =>
          let wholesale_val := w.p ts gen_name * (1/2)
          let redispatch_val := r.p ts gen_name * (1/2)
          let change := redispatch_val - wholesale_val
          if change > 0 then (acc.1 + change, acc.2) else (acc.1, acc.2 + |change|))
        acc).2)
        = acc.1 - acc.2 + (gs.map fun g => r.p ts g * (1/2) - w.p ts g * (1/2)).sum := by
    intro gs
    induction gs with
    | nil => intro acc; simp
    | cons g gs ih =>
      intro acc
      simp only [List.foldl_cons, List.map_cons, List.sum_cons]
      rw [ih]
      by_cases hc : r.p ts g * (1/2) - w.p ts g * (1/2) > 0
      · rw [if_pos hc]
        dsimp only
        ring
      · rw [if_neg hc]
        dsimp only
        rw [abs_of_nonpos (le_of_not_lt hc)]
        ring
  have := key gens (0, 0)
  unfold zoneFlexFold
  simpa using this

theorem classify_mem_zones (g : String) (table : String → Option BmuRow) :
    classify_unit_to_zone g table ∈ zones := by
  cases htab : table g with
  | none =>
    rw [classify_unit_to_zone_none htab]
    decide
  | some row =>
    rw [classify_unit_to_zone_some htab]
    split_ifs <;> decide

theorem zones_nodup : zones.Nodup := by decide

theorem rowsForTimestamp_timestamp (w r : DispatchFrame)
    (table : String → Option BmuRow) (ts : Nat) :
    ∀ row ∈ rowsForTimestamp w r table ts, row.timestamp = ts := by
  intro row hrow
  unfold rowsForTimestamp at hrow
  obtain ⟨zone, hz, hzr⟩ := List.mem_filterMap.mp hrow
  split_ifs at hzr with h
  have h2 := Option.some.inj hzr
  rw [← h2]

theorem calc_filter_timestamp (w r : DispatchFrame) (table : String → Option BmuRow)
    {ts : Nat} :
    ∀ {tss : List Nat}, tss.Nodup → ts ∈ tss →
      ((tss.flatMap fun t => rowsForTimestamp w r table t).filter
        fun row => row.timestamp == ts) = rowsForTimestamp w r table ts := by
  intro tss
  induction tss with
  | nil => intro _ h; cases h
  | cons t l ih =>
    intro hnd hmem
    obtain ⟨hnotin, hndl⟩ := List.nodup_cons.mp hnd
    rw [List.flatMap_cons, List.filter_append]
    rcases List.mem_cons.mp hmem with h | h
    · subst h
      have h1 : ((rowsForTimestamp w r table ts).filter
          fun row => row.timestamp == ts) = rowsForTimestamp w r table ts :=
        List.filter_eq_self.mpr fun row hrow => by
          simp [rowsForTimestamp_timestamp w r table ts row hrow]
      have h2 : ((l.flatMap fun t' => rowsForTimestamp w r table t').filter
          fun row => row.timestamp == ts) = [] :=
        List.filter_eq_nil_iff.mpr fun row hrow => by
          obtain ⟨t', ht', hrow'⟩ := List.mem_flatMap.mp hrow
          have heq : row.timestamp = t' :=
            rowsForTimestamp_timestamp w r table t' row hrow'
          have hne : t' ≠ ts := fun hEq => hnotin (hEq ▸ ht')
          simp [heq, hne]
      rw [h1, h2, List.append_nil]
    · have h1 : ((rowsForTimestamp w r table t).filter
          fun row => row.timestamp == ts) = [] :=
        List.filter_eq_nil_iff.mpr fun row hrow => by
          have heq : row.timestamp = t :=
            rowsForTimestamp_timestamp w r table t row hrow
          have hne : t ≠ ts := fun hEq => hnotin (hEq ▸ h)
          simp [heq, hne]
      rw [h1, ih hndl h, List.nil_append]

theorem rowsForTimestamp_net (w r : DispatchFrame) (table : String → Option BmuRow)
    (ts : Nat) :
    ((rowsForTimestamp w r table ts).map
        fun row => row.flex_up_mwh - row.flex_down_mwh).sum
      = (zones.map fun zone =>
          ((zoneGenerators w r table zone).map
            fun g => r.p ts g * (1/2) - w.p ts g * (1/2)).sum).sum := by
  unfold rowsForTimestamp
  have key : ∀ zs : List String,
      ((zs.filterMap fun zone =>
          if (zoneGenerators w r table zone).isEmpty then (none : Option ZoneVolRow)
          else
            let flex := zoneFlexFold w r ts (zoneGenerators w r table zone)
            some { timestamp := ts, zone := zone,
                   flex_up_mwh := flex.1, flex_down_mwh := flex.2 }).map
        fun row => row.flex_up_mwh - row.flex_down_mwh).sum
      = (zs.map fun zone =>
          ((zoneGenerators w r table zone).map
            fun g => r.p ts g * (1/2) - w.p ts g * (1/2)).sum).sum := by
    intro zs
    induction zs with
    | nil => simp
    | cons z zs ih =>
      simp only [List.filterMap_cons, List.map_cons, List.sum_cons]
      by_cases hempty : (zoneGenerators w r table z).isEmpty
      · rw [if_pos hempty, ih]
        rw [List.isEmpty_iff.mp hempty]
        simp
      · rw [if_neg hempty]
        dsimp only
        rw [List.map_cons, List.sum_cons, ih]
        rw [zoneFlexFold_net w r ts (zoneGenerators w r table z)]
  exact key zones

theorem sum_if_single (v : ℚ) (a : String) :
    ∀ (zs : List String), zs.Nodup → a ∈ zs →
      (zs.map fun z => if a == z then v else 0).sum = v := by
  intro zs
  induction zs with
  | nil => intro _ h; cases h
  | cons z l ih =>
    intro hnd hmem
    obtain ⟨hni, hndl⟩ := List.nodup_cons.mp hnd
    rw [List.map_cons, List.sum_cons]
    rcases List.mem_cons.mp hmem with h | h
    · subst h
      rw [if_pos (by simp)]
      have hz : (l.map fun z' => if a == z' then v else 0).sum = 0 := by
        rw [List.map_congr_left (g := fun _ => (0 : ℚ)) fun z' hz' => by
          have hne : ¬ (a == z') = true := by
            simp only [beq_iff_eq]
            intro hEq
            exact hni (hEq ▸ hz')
          rw [if_neg hne]]
        simp
      rw [hz, add_zero]
    · have hne : ¬ (a == z) = true := by
        simp only [beq_iff_eq]
        intro hEq
        exact hni (hEq ▸ h)
      rw [if_neg hne, zero_add]
      exact ih hndl h

theorem sum_over_zones_partition (table : String → Option BmuRow) (f : String → ℚ) :
    ∀ (gens : List String) (zs : List String), zs.Nodup →
      (∀ g ∈ gens, classify_unit_to_zone g table ∈ zs) →
      (zs.map fun z =>
        ((gens.filter fun g => classify_unit_to_zone g table == z).map f).sum).sum
        = (gens.map f).sum := by
  intro gens
  induction gens with
  | nil => intro zs _ _; simp
  | cons g gs ih =>
    intro zs hnd hcls
    have hsplit : ∀ z, (((g :: gs).filter fun g' =>
        classify_unit_to_zone g' table == z).map f).sum
        = (if classify_unit_to_zone g table == z then f g else 0)
          + ((gs.filter fun g' => classify_unit_to_zone g' table == z).map f).sum := by
      intro z
      rw [List.filter_cons]
      by_cases hc : (classify_unit_to_zone g table == z) = true
      · rw [if_pos hc, if_pos hc, List.map_cons, List.sum_cons]
      · rw [if_neg hc, if_neg hc, zero_add]
    rw [List.map_congr_left fun z _ => hsplit z, List.sum_map_add]
    rw [ih zs hnd fun g' hg' => hcls g' (List.mem_cons_of_mem g hg')]
    rw [sum_if_single (f g) (classify_unit_to_zone g table) zs hnd
      (hcls g (List.mem_cons_self g gs))]
    rw [List.map_cons, List.sum_cons]

/-- C6, counterexample to the claim as stated: with an empty classification
table (every participant `unknown`) and one shared generator whose dispatch
rises by 5 MWh, the aggregation emits a requirement row for the `unknown` zone
carrying that delta — `unknown` participants are aggregated, not dropped. -/
theorem C6_counterexample :
    calculate_zone_volumes_per_period ⟨[0], ["G1"], fun _ _ => 0⟩
        ⟨[0], ["G1"], fun _ _ => 10⟩ (fun _ => none)
      = [⟨0, "unknown", 5, 0⟩] ∧ (5 : ℚ) ≠ 0 :=
  ⟨by with_unfolding_all rfl, by norm_num⟩

/-- C6 (amended): no participant's delta is dropped — for each settlement
period, the signed dispatch deltas of all shared generators, including those
classified `unknown` (which land in the catch-all `unknown` zone row), are
conserved: the sum of `flex_up - flex_down` over the period's requirement rows
equals the sum of all shared generators' half-hour deltas. -/
theorem C6_unknown_aggregated (w r : DispatchFrame) (table : String → Option BmuRow)
    (ts : Nat) (hts : ts ∈ w.timestamps) (hnd : w.timestamps.Nodup) :
    (((calculate_zone_volumes_per_period w r table).filter
        fun row => row.timestamp == ts).map
        fun row => row.flex_up_mwh - row.flex_down_mwh).sum
      = ((w.columns.filter fun g => r.columns.contains g).map
          fun g => r.p ts g * (1/2) - w.p ts g * (1/2)).sum := by
  unfold calculate_zone_volumes_per_period
  rw [calc_filter_timestamp w r table hnd hts, rowsForTimestamp_net w r table ts]
  have hz : ∀ z, zoneGenerators w r table z
      = ((w.columns.filter fun g => r.columns.contains g).filter
          fun g => classify_unit_to_zone g table == z) := by
    intro z
    unfold zoneGenerators
    rw [List.filter_filter]
    exact List.filter_congr fun g _ => Bool.and_comm _ _
  rw [List.map_congr_left fun z _ => by rw [hz z]]
  exact sum_over_zones_partition table _
    (w.columns.filter fun g => r.columns.contains g) zones zones_nodup
    fun g _ => classify_mem_zones g table

/-- C6 witness: the amended conservation applied at the one-generator example;
the single `unknown` row carries the full 5 MWh delta. -/
theorem C6_unknown_aggregated_witness :
    ((((calculate_zone_volumes_per_period ⟨[0], ["G1"], fun _ _ => 0⟩
        ⟨[0], ["G1"], fun _ _ => 10⟩ (fun _ => none)).filter
        fun row => row.timestamp == 0).map
        fun row => row.flex_up_mwh - row.flex_down_mwh).sum) = 5 := by
  rw [C6_unknown_aggregated ⟨[0], ["G1"], fun _ _ => 0⟩ ⟨[0], ["G1"], fun _ _ => 10⟩
    (fun _ => none) 0 (by decide) (by decide)]
  with_unfolding_all rfl
